import Mathlib

/-
Verification of the AMLGuard decision core: a shallow embedding of
`services/rules/engine.py` (RulesEngine) and `services/stream/main.py`
(StreamProcessor), with theorems about the rule-condition evaluator, the
rule-set evaluator and its statistics, the ensemble risk-score combination,
and alert synthesis.

Modelling conventions:
- Python numbers (int / float / bool) are embedded with exact rationals for
  floats; float arithmetic is modelled as exact rational arithmetic.
- Python dicts are embedded as association lists in insertion order with
  unique keys (lookup is first-match, assignment updates in place or
  appends, matching CPython dict semantics).
- Fallible Python code is embedded in the `Except PyExc` monad; a
  `try/except (E1, E2, ...)` block becomes an explicit filter on the
  exception value.
- Timestamps (`datetime.utcnow()`) are modelled as an abstract `Nat` clock
  value passed in by the caller.
-/

namespace AMLGuard

/-- Python exception classes that the rules engine's code paths can raise:
`ValueError`, `TypeError`, `AttributeError` (the three caught by
`RulesEngine._apply_operator`), `re.error` (raised by `re.search` on a
malformed pattern; a direct subclass of `Exception`, not of the three
caught classes), and `KeyError` (raised by a missing dict key). -/
inductive PyExc where
  | valueError
  | typeError
  | attributeError
  | reError
  | keyError
deriving DecidableEq, Repr

/-- Python values as they appear in transaction records and YAML rule
configurations: `None`, booleans, ints, floats (modelled as exact
rationals), strings, lists, and string-keyed dicts. -/
inductive PyVal where
  | none : PyVal
  | bool : Bool → PyVal
  | int : Int → PyVal
  | float : Rat → PyVal
  | str : String → PyVal
  | list : List PyVal → PyVal
  | dict : List (String × PyVal) → PyVal

/-- Numeric view of a Python value: `bool` is an `int` subtype in Python
(`True == 1`), ints and floats are numbers; everything else is
non-numeric. -/
def pyToNum : PyVal → Option Rat
  | PyVal.bool b => some (if b then 1 else 0)
  | PyVal.int n => some (n : Rat)
  | PyVal.float q => some q
  | _ => Option.none

mutual

/-- Modelled from Python's `==`: numbers compare by value across
`bool`/`int`/`float`, strings by content, `None` only to `None`, lists
elementwise, dicts by key set and values; mixed non-numeric types are
unequal. -/
def pyEq : PyVal → PyVal → Bool
  | PyVal.str s, PyVal.str t => s == t
  | PyVal.none, PyVal.none => true
  | PyVal.list xs, PyVal.list ys => pyEqList xs ys
  | PyVal.dict xs, PyVal.dict ys =>
    xs.length == ys.length && pyEqDictAux xs ys
  | a, b =>
    match pyToNum a, pyToNum b with
    | some x, some y => x == y
    | _, _ => false
termination_by a b => sizeOf a + sizeOf b
decreasing_by all_goals (simp_wf; try omega)

/-- Elementwise Python equality of two lists. -/
def pyEqList : List PyVal → List PyVal → Bool
  | [], [] => true
  | x :: xs, y :: ys => pyEq x y && pyEqList xs ys
  | _, _ => false
termination_by xs ys => sizeOf xs + sizeOf ys
decreasing_by all_goals (simp_wf; try omega)

/-- Every entry of the first dict has a Python-equal entry in the second. -/
def pyEqDictAux : List (String × PyVal) → List (String × PyVal) → Bool
  | [], _ => true
  | (k, v) :: rest, ys => pyDictFindEq k v ys && pyEqDictAux rest ys
termination_by xs ys => sizeOf xs + sizeOf ys
decreasing_by all_goals (simp_wf; try omega)

/-- The dict contains key `k` with a value Python-equal to `v`. -/
def pyDictFindEq (k : String) (v : PyVal) : List (String × PyVal) → Bool
  | [] => false
  | (k2, v2) :: ys => if k2 == k then pyEq v v2 else pyDictFindEq k v ys
termination_by ys => sizeOf v + sizeOf ys
decreasing_by all_goals (simp_wf; try omega)

end

/-- Digit string to number, most significant first. -/
def digitsVal (s : String) : Nat :=
  s.toList.foldl (fun n c => n * 10 + (c.toNat - 48)) 0

/-- Separator constants (kept out of application positions). -/
def sepDot : String := "."

/-- Whitespace test for the float parser (the characters Python's `float`
strips). -/
def charWs (c : Char) : Bool :=
  c = ' ' ∨ c = '\t' ∨ c = '\n' ∨ c = '\r'

/-- Strip surrounding whitespace (structural model of `str.strip()` as used
by Python's `float`). -/
def strTrim (s : String) : String :=
  String.mk (((s.toList.dropWhile charWs).reverse.dropWhile charWs).reverse)

/-- Split a character list at every dot, keeping empty segments — the
behaviour of Python's `"".split(".")`. -/
def splitDotsAux : List Char → List Char → List (List Char)
  | [], acc => [acc.reverse]
  | c :: rest, acc =>
    if c = '.' then acc.reverse :: splitDotsAux rest [] else splitDotsAux rest (c :: acc)

/-- Python's `s.split(".")`. -/
def splitDots (s : String) : List String :=
  (splitDotsAux s.toList []).map String.mk

/-- ASCII lower-casing of one character, as Python's `str.lower` acts on
the ASCII range (non-ASCII case mappings are outside the model). -/
def charLower (c : Char) : Char :=
  if 'A' ≤ c ∧ c ≤ 'Z' then Char.ofNat (c.toNat + 32) else c

/-- Python's `str.lower()` under the ASCII model. -/
def strToLower (s : String) : String :=
  String.mk (s.toList.map charLower)

/-- Modelled from Python's `float(str)`: optional surrounding whitespace,
optional sign, decimal digits with at most one point and at least one
digit (exponent and special forms such as `inf`/`nan` are outside the
model). Returns `none` where Python raises `ValueError`. -/
def parseFloat (s : String) : Option Rat :=
  let t := strTrim s
  let (sign, u) : Int × String :=
    match t.toList with
    | '-' :: rest => (-1, String.mk rest)
    | '+' :: rest => (1, String.mk rest)
    | _ => (1, t)
  match splitDots u with
  | [ip] =>
    if ip ≠ "" && ip.toList.all Char.isDigit then
      some ((sign : Rat) * (digitsVal ip : Rat))
    else
      Option.none
  | [ip, fp] =>
    if (ip ≠ "" || fp ≠ "") && ip.toList.all Char.isDigit && fp.toList.all Char.isDigit then
      some ((sign : Rat) *
        ((digitsVal ip : Rat) + (digitsVal fp : Rat) / ((10 : Rat) ^ fp.toList.length)))
    else
      Option.none
  | _ => Option.none

/-- Modelled from Python's `float(x)` builtin: floats pass through, ints and
bools convert exactly, strings are parsed (`ValueError` on failure), and
`None`, lists and dicts raise `TypeError`. -/
def pyFloat : PyVal → Except PyExc Rat
  | PyVal.bool b => Except.ok (if b then 1 else 0)
  | PyVal.int n => Except.ok (n : Rat)
  | PyVal.float q => Except.ok q
  | PyVal.str s =>
    match parseFloat s with
    | some q => Except.ok q
    | Option.none => Except.error PyExc.valueError
  | PyVal.none => Except.error PyExc.typeError
  | PyVal.list _ => Except.error PyExc.typeError
  | PyVal.dict _ => Except.error PyExc.typeError

/-- Modelled decimal rendering of a Python float under the rational model:
integral values render as `n.0`; non-terminating values fall back to the
rational printer (no claim depends on the rendering of a non-integral
float). -/
def ratStr (q : Rat) : String :=
  if q.den = 1 then toString q.num ++ sepDot ++ toString (0 : Nat) else toString q

/-- String constants naming Python's literal words. -/
def pyNoneStr : String := "None"

/-- Python's `str(True)`. -/
def pyTrueStr : String := "True"

/-- Python's `str(False)`. -/
def pyFalseStr : String := "False"

/-- Abbreviated container rendering (no claim inspects the string form of a
list or dict field). -/
def pyContainerStr : String := "..."

/-- Modelled from Python's `str(x)` builtin for the value forms the engine
can see; container rendering is abbreviated since no rule in scope applies
a string operator to a list or dict field. -/
def pyStr : PyVal → String
  | PyVal.none => pyNoneStr
  | PyVal.bool b => if b then pyTrueStr else pyFalseStr
  | PyVal.int n => toString n
  | PyVal.float q => ratStr q
  | PyVal.str s => s
  | PyVal.list _ => pyContainerStr
  | PyVal.dict _ => pyContainerStr

/-- Substring test: Python's `needle in haystack` for strings. -/
def strContains (haystack needle : String) : Bool :=
  let h := haystack.toList
  let n := needle.toList
  (List.range (h.length + 1)).any (fun i => n.isPrefixOf (h.drop i))

/-- Modelled from Python's `x in container`: lists test elementwise
equality, strings test substring containment (`TypeError` unless the left
operand is a string), dicts test key membership (`TypeError` for an
unhashable left operand), and non-container right operands raise
`TypeError`. -/
def pyMem (x : PyVal) : PyVal → Except PyExc Bool
  | PyVal.list ys => Except.ok (ys.any (fun y => pyEq x y))
  | PyVal.str s =>
    match x with
    | PyVal.str t => Except.ok (strContains s t)
    | _ => Except.error PyExc.typeError
  | PyVal.dict d =>
    match x with
    | PyVal.str k => Except.ok (d.any (fun kv => kv.1 == k))
    | PyVal.list _ => Except.error PyExc.typeError
    | PyVal.dict _ => Except.error PyExc.typeError
    | _ => Except.ok false
  | _ => Except.error PyExc.typeError

/-- Python comparison `a <= x` where `x` is already a float: numeric left
operands compare by value, anything else raises `TypeError`. -/
def pyLeNum (a : PyVal) (x : Rat) : Except PyExc Bool :=
  match pyToNum a with
  | some q => Except.ok (decide (q ≤ x))
  | Option.none => Except.error PyExc.typeError

/-- Python comparison `x <= b` where `x` is already a float. -/
def pyNumLe (x : Rat) (b : PyVal) : Except PyExc Bool :=
  match pyToNum b with
  | some q => Except.ok (decide (x ≤ q))
  | Option.none => Except.error PyExc.typeError

/-- Modelled from Python's `re` module, simplified pattern validity: a
pattern compiles iff its parentheses balance (so `(` raises `re.error`,
matching `re.compile`). -/
def reBalancedAux : List Char → Nat → Bool
  | [], 0 => true
  | [], _ + 1 => false
  | c :: rest, depth =>
    if c = '(' then reBalancedAux rest (depth + 1)
    else if c = ')' then
      match depth with
      | 0 => false
      | d + 1 => reBalancedAux rest d
    else reBalancedAux rest depth

/-- Pattern validity for the `re.search` model. -/
def reBalanced (pat : String) : Bool := reBalancedAux pat.toList 0

/-- Operator name constant, for stating theorems about specific operators. -/
def opContains : String := "contains"

/-- Operator name constant. -/
def opNotContains : String := "not_contains"

/-- Operator name constant. -/
def opRegex : String := "regex"

/-- Operator name constant. -/
def opNearThreshold : String := "near_threshold"

/-- Operator name constant. -/
def opGreaterThan : String := "greater_than"

/-- Operator name constant. -/
def opLessThan : String := "less_than"

/-- The regex branch of `_apply_operator` (engine.py line 190):
`bool(re.search(expected_value, str(field_value)))` under the `re` model —
a non-string pattern raises `TypeError`, a malformed pattern raises
`re.error`, and a well-formed pattern is searched (literal-pattern
model). -/
def regexSearch (field_value : PyVal) : PyVal → Except PyExc Bool
  | PyVal.str pat =>
    if reBalanced pat then Except.ok (strContains (pyStr field_value) pat)
    else Except.error PyExc.reError
  | _ => Except.error PyExc.typeError

/-- The between branch of `_apply_operator` (engine.py lines 192–195):
a two-element list bound pair gives the chained comparison
`lo <= float(field_value) <= hi` with Python's left-to-right evaluation
and short-circuit; any other expected value gives `False`. -/
def betweenOp (field_value : PyVal) : PyVal → Except PyExc Bool
  | PyVal.list [lo, hi] => do
    let x ← pyFloat field_value
    let b1 ← pyLeNum lo x
    if b1 then pyNumLe x hi else Except.ok false
  | _ => Except.ok false

/-- Body of `RulesEngine._apply_operator` (engine.py lines 158–205), the
code inside its `try` block: one branch per comparison operator, an
unknown operator logs a warning and returns `False`.  Branches are the
`elif` chain in source order; Python's left-to-right operand evaluation
fixes the order of the fallible conversions. -/
def applyOperatorBody (field_value : PyVal) (operator : String) (expected_value : PyVal) :
    Except PyExc Bool :=
  if operator = "equals" then
    Except.ok (pyEq field_value expected_value)
  else if operator = "not_equals" then
    Except.ok (!(pyEq field_value expected_value))
  else if operator = "greater_than" then do
    let a ← pyFloat field_value
    let b ← pyFloat expected_value
    Except.ok (decide (b < a))
  else if operator = "less_than" then do
    let a ← pyFloat field_value
    let b ← pyFloat expected_value
    Except.ok (decide (a < b))
  else if operator = "greater_equal" then do
    let a ← pyFloat field_value
    let b ← pyFloat expected_value
    Except.ok (decide (b ≤ a))
  else if operator = "less_equal" then do
    let a ← pyFloat field_value
    let b ← pyFloat expected_value
    Except.ok (decide (a ≤ b))
  else if operator = "in" then
    pyMem field_value expected_value
  else if operator = "not_in" then do
    let m ← pyMem field_value expected_value
    Except.ok (!m)
  else if operator = "contains" then
    pyMem expected_value (PyVal.str (strToLower (pyStr field_value)))
  else if operator = "not_contains" then do
    let m ← pyMem expected_value (PyVal.str (strToLower (pyStr field_value)))
    Except.ok (!m)
  else if operator = "regex" then
    regexSearch field_value expected_value
  else if operator = "between" then
    betweenOp field_value expected_value
  else if operator = "near_threshold" then do
    let threshold ← pyFloat expected_value
    let amount ← pyFloat field_value
    Except.ok (decide (threshold * (17/20 : Rat) ≤ amount ∧ amount < threshold))
  else
    Except.ok false

/-- `RulesEngine._apply_operator` (engine.py lines 155–209): the operator
body wrapped in `try/except (ValueError, TypeError, AttributeError)`
returning `False`; any other exception (notably `re.error`) propagates. -/
def applyOperator (field_value : PyVal) (operator : String) (expected_value : PyVal) :
    Except PyExc Bool :=
  match applyOperatorBody field_value operator expected_value with
  | Except.ok b => Except.ok b
  | Except.error e =>
    if e = PyExc.valueError ∨ e = PyExc.typeError ∨ e = PyExc.attributeError then
      Except.ok false
    else
      Except.error e

/-- First-match association-list lookup: Python dict `d[k]` / `k in d`
under the unique-keys invariant. -/
def assocFind {α : Type} : List (String × α) → String → Option α
  | [], _ => Option.none
  | (k2, v) :: rest, k => if k2 = k then some v else assocFind rest k

/-- In-place association-list update of an existing key (no insertion):
Python `d[k].f()` style mutation of a present entry. -/
def assocUpdate {α : Type} : List (String × α) → String → (α → α) → List (String × α)
  | [], _, _ => []
  | (k2, v) :: rest, k, f =>
    if k2 = k then (k2, f v) :: rest else (k2, v) :: assocUpdate rest k f

/-- Python dict assignment `d[k] = v`: update in place when the key exists
(keeping its position), otherwise append. -/
def assocInsert {α : Type} : List (String × α) → String → α → List (String × α)
  | [], k, v => [(k, v)]
  | (k2, v2) :: rest, k, v =>
    if k2 = k then (k2, v) :: rest else (k2, v2) :: assocInsert rest k v

/-- `RulesEngine._get_field_value` (engine.py lines 141–153): walk the
dotted path through nested dicts; any missing segment or non-dict value
yields Python `None`. -/
def getFieldValueAux : List String → PyVal → PyVal
  | [], v => v
  | part :: parts, PyVal.dict d =>
    match assocFind d part with
    | some v => getFieldValueAux parts v
    | Option.none => PyVal.none
  | _ :: _, _ => PyVal.none

/-- Dotted-path field resolution against a transaction record. -/
def getFieldValue (transaction : PyVal) (field_path : String) : PyVal :=
  getFieldValueAux (splitDots field_path) transaction

/-- One rule condition as loaded from YAML (`{field, operator, value}`);
a key missing from the document is the empty string / `None`, which the
evaluator treats as falsy exactly as `condition.get(...)` does. -/
structure Condition where
  field : String
  operator : String
  value : PyVal

/-- Python's `x is None` test for embedded values. -/
def pyIsNone : PyVal → Bool
  | PyVal.none => true
  | _ => false

/-- `RulesEngine._evaluate_condition` (engine.py lines 122–139): falsy
field or operator gives `False`; an unresolved field (Python `None`)
gives `False`; otherwise the operator is applied. -/
def evaluateCondition (condition : Condition) (transaction : PyVal) : Except PyExc Bool :=
  if condition.field = "" || condition.operator = "" then
    Except.ok false
  else
    let field_value := getFieldValue transaction condition.field
    if pyIsNone field_value then
      Except.ok false
    else
      applyOperator field_value condition.operator condition.value

/-- One rule configuration document, with the `rule_config.get` defaults of
engine.py already resolved: `conditions` defaults to `[]`, `logic` to
`"AND"`, `score` to `0.5`, `enabled` to `True`. -/
structure Rule where
  conditions : List Condition
  logic : String
  score : Rat
  enabled : Bool

/-- The condition loop of `RulesEngine._evaluate_rule` (engine.py lines
100–102): conditions are evaluated in order and an exception from any one
of them propagates out of the rule. -/
def conditionResults (conditions : List Condition) (transaction : PyVal) :
    Except PyExc (List Bool) :=
  match conditions with
  | [] => Except.ok []
  | c :: rest => do
    let r ← evaluateCondition c transaction
    let rs ← conditionResults rest transaction
    Except.ok (r :: rs)

/-- Python `sum(condition_results)` over booleans: the number of `True`
entries. -/
def countTrue (l : List Bool) : Nat := (l.filter id).length

/-- `RulesEngine._evaluate_rule` (engine.py lines 88–120): no conditions
means `(False, 0.0)`; otherwise all conditions are evaluated, combined by
`logic` (`AND` = all, `OR` = any, anything else defaults to `AND`), and a
triggered rule scores `base_score * (count_true / total)`. -/
def evaluateRule (rule_config : Rule) (transaction : PyVal) : Except PyExc (Bool × Rat) :=
  let conditions := rule_config.conditions
  let logic := rule_config.logic
  let base_score := rule_config.score
  if conditions.isEmpty then
    Except.ok (false, 0)
  else do
    let condition_results ← conditionResults conditions transaction
    let is_triggered :=
      if logic = "AND" then condition_results.all id
      else if logic = "OR" then condition_results.any id
      else condition_results.all id
    let final_score :=
      if is_triggered then
        base_score * ((countTrue condition_results : Rat) / (condition_results.length : Rat))
      else
        (0 : Rat)
    Except.ok (is_triggered, final_score)

/-- Per-rule statistics record (engine.py lines 40–44). -/
structure RuleStats where
  triggers : Nat
  evaluations : Nat
  last_triggered : Option Nat
deriving DecidableEq, Repr

/-- The statistics record `load_rules` creates for a freshly loaded rule. -/
def freshStats : RuleStats :=
  { triggers := 0, evaluations := 0, last_triggered := Option.none }

/-- Mutable state of a `RulesEngine` instance: the `self.rules` dict and the
`self.rule_stats` dict, keyed by rule name (the YAML file stem). -/
structure EngineState where
  rules : List (String × Rule)
  rule_stats : List (String × RuleStats)

/-- Result dict of `RulesEngine.evaluate_transaction` (engine.py lines
82–86). -/
structure RuleEvalResult where
  triggered_rules : List String
  rule_scores : List (String × Rat)
  evaluation_timestamp : Nat
deriving DecidableEq, Repr

/-- One iteration of the rule loop in `RulesEngine.evaluate_transaction`
(engine.py lines 59–80), including its `try/except`: a missing stats entry
raises `KeyError` before anything else happens (rule skipped, no change);
the evaluation counter increment survives a later exception from
`_evaluate_rule`; a triggered rule appends its name, records its score,
and bumps its trigger counter and last-triggered timestamp. -/
def evalRuleStep (transaction : PyVal) (now : Nat)
    (acc : List String × List (String × Rat) × List (String × RuleStats))
    (entry : String × Rule) :
    List String × List (String × Rat) × List (String × RuleStats) :=
  let (triggered_rules, rule_scores, stats) := acc
  let (rule_name, rule_config) := entry
  match assocFind stats rule_name with
  | Option.none => (triggered_rules, rule_scores, stats)
  | some _ =>
    let stats1 := assocUpdate stats rule_name
      (fun s => { s with evaluations := s.evaluations + 1 })
    match evaluateRule rule_config transaction with
    | Except.error _ => (triggered_rules, rule_scores, stats1)
    | Except.ok (is_triggered, score) =>
      if is_triggered then
        (triggered_rules ++ [rule_name],
         assocInsert rule_scores rule_name score,
         assocUpdate stats1 rule_name
           (fun s => { s with triggers := s.triggers + 1, last_triggered := some now }))
      else
        (triggered_rules, rule_scores, stats1)

/-- `RulesEngine.evaluate_transaction` (engine.py lines 53–86): fold the
per-rule step over every loaded rule (note: every rule in `self.rules`,
with no test of the rule's `enabled` flag), returning the result dict and
the engine state with its updated statistics. -/
def evaluateTransaction (state : EngineState) (transaction : PyVal) (now : Nat) :
    RuleEvalResult × EngineState :=
  let folded := state.rules.foldl (evalRuleStep transaction now) ([], [], state.rule_stats)
  ({ triggered_rules := folded.1,
     rule_scores := folded.2.1,
     evaluation_timestamp := now },
   { rules := state.rules, rule_stats := folded.2.2 })

/-- `RulesEngine.load_rules` (engine.py lines 24–51) after YAML parsing:
each successfully parsed rule file (keyed by its stem) is assigned into
`self.rules` and given a fresh statistics record in `self.rule_stats`;
malformed files were already skipped by the surrounding `try/except`. -/
def loadRules (files : List (String × Rule)) (state : EngineState) : EngineState :=
  files.foldl
    (fun s entry =>
      { rules := assocInsert s.rules entry.1 entry.2,
        rule_stats := assocInsert s.rule_stats entry.1 freshStats })
    state

/-- `RulesEngine.reload_rules` (engine.py lines 236–244): `self.rules` is
cleared, `self.rule_stats` is left untouched, then `load_rules` runs on
the new configuration set. -/
def reloadRules (files : List (String × Rule)) (state : EngineState) : EngineState :=
  loadRules files { rules := [], rule_stats := state.rule_stats }

/-- Round half to even on a rational: the tie-breaking rule of Python's
`round` under the exact rational model of floats. -/
def roundHalfEven (q : Rat) : Int :=
  let f := q.floor
  let r := q - (f : Rat)
  if r < (1/2 : Rat) then f
  else if (1/2 : Rat) < r then f + 1
  else if f % 2 = 0 then f else f + 1

/-- Modelled from Python's `round(x, 2)` under the rational model of
floats: round-half-even at two decimal places. -/
def pyRound2 (q : Rat) : Rat := ((roundHalfEven (q * 100) : Rat)) / 100

/-- ML-scorer response (`_get_ml_prediction` returns the decoded JSON, or
`None` on any failure); only the fields the decision path reads are kept,
with the `.get` defaults of stream/main.py already resolved. -/
structure MLPrediction where
  risk_score : Rat
  confidence : Rat
deriving DecidableEq, Repr

/-- Python `max(values)` over a nonempty list, `0.0` when the dict is empty:
`max(rule_scores.values()) if rule_scores else 0.0` in
`_calculate_final_risk_score`. -/
def listMaxD : List Rat → Rat
  | [] => 0
  | v :: vs => vs.foldl max v

/-- `StreamProcessor._calculate_final_risk_score` (stream/main.py lines
189–209): combine the ML score (0 when no prediction is available) with
the highest rule score, with a boosted branch when any rule triggered,
capped at 10 and rounded to two decimals. -/
def calculateFinalRiskScore (ml_prediction : Option MLPrediction)
    (rule_results : RuleEvalResult) : Rat :=
  let ml_score : Rat :=
    match ml_prediction with
    | some p => p.risk_score
    | Option.none => 0
  let max_rule_score := listMaxD (rule_results.rule_scores.map Prod.snd)
  let final_score :=
    if !rule_results.triggered_rules.isEmpty then
      min 10 ((6/10 : Rat) * ml_score + (4/10 : Rat) * max_rule_score * 10 + 1)
    else
      (8/10 : Rat) * ml_score + (2/10 : Rat) * max_rule_score * 10
  pyRound2 final_score

/-- Alert record assembled by `StreamProcessor._create_alert`
(stream/main.py lines 266–274). -/
structure Alert where
  transaction_id : PyVal
  customer_id : PyVal
  alert_type : String
  severity : String
  title : String
  description : String
  risk_score : Rat

/-- Python's `"{:.2f}".format(q)` under the rational model: two decimal
digits, round half to even. -/
def ratStr2 (q : Rat) : String :=
  let n := roundHalfEven (q * 100)
  let a := n.natAbs
  let sign := if n < 0 then "-" else ""
  let frac := a % 100
  let fracStr := if frac < 10 then toString (0 : Nat) ++ toString frac else toString frac
  sign ++ toString (a / 100) ++ sepDot ++ fracStr

/-- Python `transaction.get(key)`: the value under `key`, or `None`. -/
def pyGet (v : PyVal) (key : String) : PyVal :=
  match v with
  | PyVal.dict d =>
    match assocFind d key with
    | some w => w
    | Option.none => PyVal.none
  | _ => PyVal.none

/-- Severity label constant. -/
def sevCritical : String := "critical"

/-- Severity label constant. -/
def sevHigh : String := "high"

/-- Severity label constant. -/
def sevMedium : String := "medium"

/-- Disposition label constant. -/
def dispFlagged : String := "flagged"

/-- Disposition label constant. -/
def dispClear : String := "clear"

/-- Alert-type / rule-name constant. -/
def atStructuring : String := "structuring"

/-- Alert-type / rule-name constant. -/
def atVelocity : String := "velocity"

/-- Alert-type / rule-name constant. -/
def atGeographic : String := "geographic"

/-- Alert-type constant. -/
def atAnomaly : String := "anomaly"

/-- Alert title for the structuring type. -/
def titleStructuring : String := "Potential Structuring Pattern Detected"

/-- Alert title for the velocity type. -/
def titleVelocity : String := "High-Velocity Transaction Pattern"

/-- Alert title for the geographic type. -/
def titleGeographic : String := "Unusual Geographic Activity"

/-- Alert title for the anomaly type. -/
def titleAnomaly : String := "Anomalous Transaction Detected"

/-- Transaction/customer key constants. -/
def keyTransactionId : String := "transaction_id"

/-- Customer-id key constant. -/
def keyCustomerId : String := "customer_id"

/-- Fragments of the synthesized alert description. -/
def descFlaggedPre : String := "Transaction flagged with risk score "

/-- Description fragment before the triggered-rule list. -/
def descRulesPre : String := "Rules triggered: "

/-- Description fragment before the ML confidence. -/
def descConfidencePre : String := "ML confidence: "

/-- Separator for the triggered-rule list in the description. -/
def sepCommaSpace : String := ", "

/-- Sentence separator in the description. -/
def sepDotSpace : String := ". "

/-- `StreamProcessor._create_alert` (stream/main.py lines 231–280), the
pure alert construction inside its `try`: severity from the risk score
(`critical` at 8.0 and above, `high` at 6.0 and above, else `medium`),
alert type and title chosen by the fixed priority order
structuring → velocity → geographic → anomaly over the triggered rule
names, and a synthesized description. -/
def createAlert (transaction : PyVal) (ml_prediction : Option MLPrediction)
    (rule_results : RuleEvalResult) (risk_score : Rat) : Alert :=
  let severity :=
    if (8 : Rat) ≤ risk_score then sevCritical
    else if (6 : Rat) ≤ risk_score then sevHigh
    else sevMedium
  let triggered_rules := rule_results.triggered_rules
  let type_title :=
    if triggered_rules.contains atStructuring then (atStructuring, titleStructuring)
    else if triggered_rules.contains atVelocity then (atVelocity, titleVelocity)
    else if triggered_rules.contains atGeographic then (atGeographic, titleGeographic)
    else (atAnomaly, titleAnomaly)
  let description := descFlaggedPre ++ ratStr risk_score ++ sepDotSpace
  let description :=
    if !triggered_rules.isEmpty then
      description ++ descRulesPre ++ String.intercalate sepCommaSpace triggered_rules ++ sepDotSpace
    else description
  let description :=
    match ml_prediction with
    | some p => description ++ descConfidencePre ++ ratStr2 p.confidence
    | Option.none => description
  { transaction_id := pyGet transaction keyTransactionId,
    customer_id := pyGet transaction keyCustomerId,
    alert_type := type_title.1,
    severity := severity,
    title := type_title.2,
    description := description,
    risk_score := risk_score }

/-- Disposition assigned in `StreamProcessor._update_transaction`
(stream/main.py line 220): `"flagged" if final_risk_score >= 6.0 else
"clear"`. -/
def transactionStatus (final_risk_score : Rat) : String :=
  if (6 : Rat) ≤ final_risk_score then dispFlagged else dispClear

/-- Decision path of `StreamProcessor._process_single_transaction`
(stream/main.py lines 106–137) after the ML call and rule evaluation have
produced their inputs: the final risk score, the disposition written by
`_update_transaction`, and the alert created exactly when
`final_risk_score >= 6.0`. -/
def processSingleTransaction (transaction : PyVal) (ml_prediction : Option MLPrediction)
    (rule_results : RuleEvalResult) : Rat × String × Option Alert :=
  let final_risk_score := calculateFinalRiskScore ml_prediction rule_results
  let status := transactionStatus final_risk_score
  let alert :=
    if (6 : Rat) ≤ final_risk_score then
      some (createAlert transaction ml_prediction rule_results final_risk_score)
    else
      Option.none
  (final_risk_score, status, alert)

/-- Sample condition that holds on the sample transaction
(`amount > 100`). -/
def sCondTrue : Condition :=
  { field := "amount", operator := "greater_than", value := PyVal.int 100 }

/-- Sample condition that fails on the sample transaction
(`amount < 10`). -/
def sCondFalse : Condition :=
  { field := "amount", operator := "less_than", value := PyVal.int 10 }

/-- Unbalanced regex pattern: `re.compile` raises `re.error` on it. -/
def sBadPattern : String := "("

/-- Sample free-text description value. -/
def sDescriptionText : String := "wire cash deposit"

/-- Sample condition with a malformed regex pattern. -/
def sCondBadRegex : Condition :=
  { field := "description", operator := "regex", value := PyVal.str sBadPattern }

/-- The operator names recognized by the `elif` chain of `_apply_operator`
(engine.py lines 159–201); any other operator name reaches the
logged-unknown branch (lines 203–205) and yields `False`. -/
def knownOperators : List String :=
  ["equals", "not_equals", "greater_than", "less_than", "greater_equal", "less_equal",
   "in", "not_in", "contains", "not_contains", "regex", "between", "near_threshold"]

/-- Sample condition whose dotted field path does not resolve on the sample
transaction. -/
def sCondMissingField : Condition :=
  { field := "location.country", operator := "equals", value := PyVal.int 1 }

/-- Sample condition with an operator name outside the recognized set. -/
def sCondUnknownOp : Condition :=
  { field := "amount", operator := "weird_op", value := PyVal.int 1 }

/-- Sample transaction record. -/
def sTx : PyVal :=
  PyVal.dict [("amount", PyVal.int 500), ("description", PyVal.str sDescriptionText)]

/-- Sample rule configuration loaded with `enabled: false` and one
condition that the sample transaction satisfies. -/
def sDisabledRule : Rule :=
  { conditions := [sCondTrue], logic := "AND", score := 1/2, enabled := false }

/-- Rule name under which `sDisabledRule` is registered. -/
def sDisabledName : String := "disabled_rule"

/-- Engine state holding exactly the disabled sample rule, as `load_rules`
would produce it. -/
def sDisabledState : EngineState :=
  { rules := [(sDisabledName, sDisabledRule)],
    rule_stats := [(sDisabledName, freshStats)] }

/-- Sample rule with `OR` logic, base score `0.8`, and one true plus one
false condition on the sample transaction. -/
def sOrRule : Rule :=
  { conditions := [sCondTrue, sCondFalse], logic := "OR", score := 4/5, enabled := true }

/-- Sample stale statistics record present before a reload. -/
def sOldStats : RuleStats :=
  { triggers := 3, evaluations := 5, last_triggered := some 7 }

/-- Rule name that disappears across the sample reload. -/
def sOldName : String := "old_rule"

/-- Rule name that appears in the sample reload. -/
def sNewName : String := "new_rule"

/-- Engine state before the sample reload: one rule, with accumulated
statistics. -/
def sPreReloadState : EngineState :=
  { rules := [(sOldName, sOrRule)], rule_stats := [(sOldName, sOldStats)] }

/-- Sample two-rule engine state with fresh statistics. -/
def sTwoRuleState : EngineState :=
  { rules := [("big_amount", sOrRule), ("bad_pattern", { conditions := [sCondBadRegex], logic := "AND", score := 1/2, enabled := true })],
    rule_stats := [("big_amount", freshStats), ("bad_pattern", freshStats)] }

/-- Sample rule-evaluation result with one triggered rule. -/
def sTrigResult : RuleEvalResult :=
  { triggered_rules := [atVelocity], rule_scores := [(atVelocity, 2/5)], evaluation_timestamp := 0 }

/-- Sample rule-evaluation result with no triggered rule. -/
def sClearResult : RuleEvalResult :=
  { triggered_rules := [], rule_scores := [], evaluation_timestamp := 0 }

/-- Sample ML prediction (risk score 7.0, confidence 0.9). -/
def sPrediction : MLPrediction := { risk_score := 7, confidence := 9/10 }

/-- Sample lower-case field value for the contains operator. -/
def sFieldCash : String := "cash deposit"

/-- Sample expected value in upper case. -/
def sNeedleUpper : String := "CASH"

/-- Sample expected value in lower case. -/
def sNeedleLower : String := "cash"

/-- Sample field value in mixed case. -/
def sFieldCashMixed : String := "Cash Deposit"

/-- Spec-side reading of C3: the ML score named by the claim — the
prediction's risk score, substituted by `0.0` when no prediction is
available. -/
def mlScoreOf : Option MLPrediction → Rat
  | some p => p.risk_score
  | Option.none => 0

/-- Spec-side reading of C5: whether a rule triggers, from its logic and
its condition outcomes — `AND` requires all true, `OR` at least one, an
unrecognized logic behaves as `AND`. -/
def specRuleTrig (logic : String) (rs : List Bool) : Bool :=
  if logic = "AND" then rs.all id
  else if logic = "OR" then rs.any id
  else rs.all id

/-- Spec-side reading of C5: the score of an evaluated rule — when
triggered, `base_score * (count_true / total_conditions)`, else `0`. -/
def specRuleScore (base : Rat) (logic : String) (rs : List Bool) : Rat :=
  if specRuleTrig logic rs then base * ((countTrue rs : Rat) / (rs.length : Rat)) else 0

/-- Sample triggered-rule set holding geographic before structuring. -/
def sGeoStructResult : RuleEvalResult :=
  { triggered_rules := [atGeographic, atStructuring], rule_scores := [], evaluation_timestamp := 0 }

/-- Sample triggered-rule set holding structuring before geographic. -/
def sStructGeoResult : RuleEvalResult :=
  { triggered_rules := [atStructuring, atGeographic], rule_scores := [], evaluation_timestamp := 0 }

/-! Helper lemmas. -/

/-- Bind on `Except` after a success. -/
theorem except_bind_ok {α β : Type} (a : α) (f : α → Except PyExc β) :
    (Except.ok a >>= f : Except PyExc β) = f a := rfl

/-- Bind on `Except` after an error. -/
theorem except_bind_error {α β : Type} (e : PyExc) (f : α → Except PyExc β) :
    ((Except.error e : Except PyExc α) >>= f : Except PyExc β) = Except.error e := rfl

/-- Errors of the float conversion are conversion errors. -/
theorem pyFloat_error (v : PyVal) (e : PyExc) (h : pyFloat v = Except.error e) :
    e = PyExc.valueError ∨ e = PyExc.typeError := by
  cases v <;> simp [pyFloat] at h <;> try (exact Or.inr h.symm)
  case str s =>
    cases hp : parseFloat s <;> rw [hp] at h <;> simp at h
    exact Or.inl h.symm

/-- Errors of the membership test are type errors. -/
theorem pyMem_error (x c : PyVal) (e : PyExc) (h : pyMem x c = Except.error e) :
    e = PyExc.typeError := by
  cases c with
  | list ys => simp [pyMem] at h
  | str s => cases x <;> simp [pyMem] at h <;> exact h.symm
  | dict d => cases x <;> simp [pyMem] at h <;> exact h.symm
  | none => simp [pyMem] at h; exact h.symm
  | bool b => simp [pyMem] at h; exact h.symm
  | int n => simp [pyMem] at h; exact h.symm
  | float q => simp [pyMem] at h; exact h.symm

/-- Errors of the numeric left comparison are type errors. -/
theorem pyLeNum_error (a : PyVal) (x : Rat) (e : PyExc) (h : pyLeNum a x = Except.error e) :
    e = PyExc.typeError := by
  unfold pyLeNum at h
  cases hn : pyToNum a <;> rw [hn] at h <;> simp at h
  exact h.symm

/-- Errors of the numeric right comparison are type errors. -/
theorem pyNumLe_error (x : Rat) (b : PyVal) (e : PyExc) (h : pyNumLe x b = Except.error e) :
    e = PyExc.typeError := by
  unfold pyNumLe at h
  cases hn : pyToNum b <;> rw [hn] at h <;> simp at h
  exact h.symm

/-- Errors of a two-float-conversion comparison come from the conversions
when the continuation cannot fail. -/
theorem bind2_float_error (u v : PyVal) (k : Rat → Rat → Except PyExc Bool) (e : PyExc)
    (hk : ∀ a b e2, k a b = Except.error e2 → False)
    (h : (do
        let a ← pyFloat u
        let b ← pyFloat v
        k a b) = Except.error e) :
    e = PyExc.valueError ∨ e = PyExc.typeError := by
  cases hu : pyFloat u with
  | error eu =>
    rw [hu, except_bind_error] at h
    injection h with h2
    exact h2 ▸ pyFloat_error u eu hu
  | ok a =>
    rw [hu, except_bind_ok] at h
    cases hv : pyFloat v with
    | error ev2 =>
      rw [hv, except_bind_error] at h
      injection h with h2
      exact h2 ▸ pyFloat_error v ev2 hv
    | ok b =>
      rw [hv, except_bind_ok] at h
      exact absurd h (fun hh => hk a b e hh)

/-- Errors of a bind whose continuation cannot fail come from the first
action. -/
theorem bind1_error {α : Type} (m : Except PyExc α) (k : α → Except PyExc Bool) (e : PyExc)
    (hk : ∀ a e2, k a = Except.error e2 → False)
    (h : (m >>= k) = Except.error e) : m = Except.error e := by
  cases hm : m with
  | error em =>
    rw [hm, except_bind_error] at h
    injection h with h2
    exact congrArg Except.error h2
  | ok a =>
    rw [hm, except_bind_ok] at h
    exact absurd h (fun hh => hk a e hh)

/-- Errors of the regex branch are `re.error` (malformed pattern) or
`TypeError` (non-string pattern). -/
theorem regexSearch_error (fv ev : PyVal) (e : PyExc) (h : regexSearch fv ev = Except.error e) :
    e = PyExc.reError ∨ e = PyExc.typeError := by
  cases ev with
  | str pat =>
    by_cases hb : reBalanced pat = true
    · simp [regexSearch, hb] at h
    · simp [regexSearch, hb] at h
      exact Or.inl h.symm
  | none => simp [regexSearch] at h; exact Or.inr h.symm
  | bool b => simp [regexSearch] at h; exact Or.inr h.symm
  | int n => simp [regexSearch] at h; exact Or.inr h.symm
  | float q => simp [regexSearch] at h; exact Or.inr h.symm
  | list l => simp [regexSearch] at h; exact Or.inr h.symm
  | dict d => simp [regexSearch] at h; exact Or.inr h.symm

/-- Errors of the between branch are conversion or comparison type
errors. -/
theorem betweenOp_error (fv ev : PyVal) (e : PyExc) (h : betweenOp fv ev = Except.error e) :
    e = PyExc.valueError ∨ e = PyExc.typeError := by
  cases ev with
  | list bounds =>
    match bounds, h with
    | [], h => simp [betweenOp] at h
    | [x], h => simp [betweenOp] at h
    | x :: y :: z :: rest, h => simp [betweenOp] at h
    | [lo, hi], h =>
      rw [show betweenOp fv (PyVal.list [lo, hi]) = (do
          let x ← pyFloat fv
          let b1 ← pyLeNum lo x
          if b1 then pyNumLe x hi else Except.ok false) from rfl] at h
      cases hx : pyFloat fv with
      | error ex =>
        rw [hx, except_bind_error] at h
        injection h with h2
        exact h2 ▸ pyFloat_error fv ex hx
      | ok x =>
        rw [hx, except_bind_ok] at h
        cases hl : pyLeNum lo x with
        | error el =>
          rw [hl, except_bind_error] at h
          injection h with h2
          exact h2 ▸ Or.inr (pyLeNum_error lo x el hl)
        | ok b1 =>
          rw [hl, except_bind_ok] at h
          cases b1 with
          | true =>
            rw [if_pos rfl] at h
            exact Or.inr (pyNumLe_error x hi e h)
          | false => simp at h
  | none => simp [betweenOp] at h
  | bool b => simp [betweenOp] at h
  | int n => simp [betweenOp] at h
  | float q => simp [betweenOp] at h
  | str s => simp [betweenOp] at h
  | dict d => simp [betweenOp] at h

/-- Every exception escaping the operator body is either the `re.error` of
the regex branch or one of the conversion errors the surrounding
`try/except` catches. -/
theorem applyOperatorBody_error_cases (fv : PyVal) (op : String) (ev : PyVal) (e : PyExc)
    (h : applyOperatorBody fv op ev = Except.error e) :
    (op = opRegex ∧ e = PyExc.reError) ∨ e = PyExc.valueError ∨ e = PyExc.typeError := by
  unfold applyOperatorBody at h
  by_cases h1 : op = "equals"
  · simp [h1] at h
  rw [if_neg h1] at h
  by_cases h2 : op = "not_equals"
  · simp [h2] at h
  rw [if_neg h2] at h
  by_cases h3 : op = "greater_than"
  · rw [if_pos h3] at h
    exact Or.inr (bind2_float_error fv ev _ e (fun a b e2 hh => by simp at hh) h)
  rw [if_neg h3] at h
  by_cases h4 : op = "less_than"
  · rw [if_pos h4] at h
    exact Or.inr (bind2_float_error fv ev _ e (fun a b e2 hh => by simp at hh) h)
  rw [if_neg h4] at h
  by_cases h5 : op = "greater_equal"
  · rw [if_pos h5] at h
    exact Or.inr (bind2_float_error fv ev _ e (fun a b e2 hh => by simp at hh) h)
  rw [if_neg h5] at h
  by_cases h6 : op = "less_equal"
  · rw [if_pos h6] at h
    exact Or.inr (bind2_float_error fv ev _ e (fun a b e2 hh => by simp at hh) h)
  rw [if_neg h6] at h
  by_cases h7 : op = "in"
  · rw [if_pos h7] at h
    exact Or.inr (Or.inr (pyMem_error fv ev e h))
  rw [if_neg h7] at h
  by_cases h8 : op = "not_in"
  · rw [if_pos h8] at h
    have hm := bind1_error (pyMem fv ev) _ e (fun a e2 hh => by simp at hh) h
    exact Or.inr (Or.inr (pyMem_error fv ev e hm))
  rw [if_neg h8] at h
  by_cases h9 : op = "contains"
  · rw [if_pos h9] at h
    exact Or.inr (Or.inr (pyMem_error ev _ e h))
  rw [if_neg h9] at h
  by_cases h10 : op = "not_contains"
  · rw [if_pos h10] at h
    have hm := bind1_error (pyMem ev (PyVal.str (strToLower (pyStr fv)))) _ e
      (fun a e2 hh => by simp at hh) h
    exact Or.inr (Or.inr (pyMem_error ev _ e hm))
  rw [if_neg h10] at h
  by_cases h11 : op = "regex"
  · rw [if_pos h11] at h
    rcases regexSearch_error fv ev e h with hre | hte
    · exact Or.inl ⟨h11, hre⟩
    · exact Or.inr (Or.inr hte)
  rw [if_neg h11] at h
  by_cases h12 : op = "between"
  · rw [if_pos h12] at h
    exact Or.inr (betweenOp_error fv ev e h)
  rw [if_neg h12] at h
  by_cases h13 : op = "near_threshold"
  · rw [if_pos h13] at h
    exact Or.inr (bind2_float_error ev fv _ e (fun a b e2 hh => by simp at hh) h)
  rw [if_neg h13] at h
  simp at h

/-- Every exception escaping `_apply_operator` through its `try/except` is
the `re.error` of the regex branch. -/
theorem applyOperator_error_cases (fv : PyVal) (op : String) (ev : PyVal) (e : PyExc)
    (h : applyOperator fv op ev = Except.error e) :
    op = opRegex ∧ e = PyExc.reError := by
  unfold applyOperator at h
  cases hb : applyOperatorBody fv op ev with
  | ok b => rw [hb] at h; simp at h
  | error eb =>
    rw [hb] at h
    replace h : (if eb = PyExc.valueError ∨ eb = PyExc.typeError ∨ eb = PyExc.attributeError
        then Except.ok false else (Except.error eb : Except PyExc Bool)) = Except.error e := h
    split at h
    · simp at h
    · rename_i hnc
      injection h with h2
      rcases applyOperatorBody_error_cases fv op ev eb hb with hre | hve | hte
      · exact ⟨hre.1, h2 ▸ hre.2⟩
      · exact absurd (Or.inl hve) hnc
      · exact absurd (Or.inr (Or.inl hte)) hnc

/-! Claim C2: condition evaluation fails closed, with the regex
exception. -/

/-- C2 counterexample: a condition whose regex pattern is malformed makes
`_evaluate_condition` raise `re.error` out of the condition evaluator
(the `except (ValueError, TypeError, AttributeError)` clause does not
catch `re.error`), contradicting the claim that every failure yields
`false` without propagating. -/
theorem c2_malformed_regex_raises :
    evaluateCondition sCondBadRegex sTx = Except.error PyExc.reError := by
  rfl

/-- An operator name outside the recognized set falls through the whole
`elif` chain to the logged-unknown branch and returns `False`. -/
theorem applyOperatorBody_unknown (fv : PyVal) (op : String) (ev : PyVal)
    (h : op ∉ knownOperators) : applyOperatorBody fv op ev = Except.ok false := by
  simp only [knownOperators, List.mem_cons, List.not_mem_nil, or_false] at h
  push_neg at h
  obtain ⟨h1, h2, h3, h4, h5, h6, h7, h8, h9, h10, h11, h12, h13⟩ := h
  unfold applyOperatorBody
  rw [if_neg h1, if_neg h2, if_neg h3, if_neg h4, if_neg h5, if_neg h6, if_neg h7,
    if_neg h8, if_neg h9, if_neg h10, if_neg h11, if_neg h12, if_neg h13]

/-- The regex operator on a well-formed string pattern returns the search
outcome and cannot raise. -/
theorem applyOperator_regex_wellformed (fv : PyVal) (pat : String)
    (hb : reBalanced pat = true) :
    applyOperator fv opRegex (PyVal.str pat) = Except.ok (strContains (pyStr fv) pat) := by
  simp [applyOperator, applyOperatorBody, opRegex, regexSearch, hb]

/-- C2 (amended): condition evaluation always returns a boolean — an
unresolvable field path yields `false`, an unknown operator yields
`false`, any raised conversion error of the caught classes
(`ValueError`, `TypeError`, `AttributeError`) yields `false`, and the
regex operator on a well-formed pattern returns a boolean — except that a
malformed regex pattern under the `regex` operator raises `re.error`,
which propagates out of the condition evaluator (and is then caught only
by the per-rule handler in `evaluate_transaction`). -/
theorem c2_condition_fail_closed (c : Condition) (tx : PyVal) :
    (evaluateCondition c tx = Except.ok true ∨ evaluateCondition c tx = Except.ok false ∨
      (c.operator = opRegex ∧ evaluateCondition c tx = Except.error PyExc.reError))
    ∧ (pyIsNone (getFieldValue tx c.field) = true →
        evaluateCondition c tx = Except.ok false)
    ∧ (c.operator ∉ knownOperators → evaluateCondition c tx = Except.ok false)
    ∧ (∀ e, applyOperatorBody (getFieldValue tx c.field) c.operator c.value = Except.error e →
        e = PyExc.valueError ∨ e = PyExc.typeError ∨ e = PyExc.attributeError →
        evaluateCondition c tx = Except.ok false)
    ∧ (∀ pat, c.operator = opRegex → c.value = PyVal.str pat → reBalanced pat = true →
        evaluateCondition c tx = Except.ok true ∨ evaluateCondition c tx = Except.ok false) := by
  have hgoal : evaluateCondition c tx =
      (if (c.field = "" || c.operator = "") = true then Except.ok false
       else if pyIsNone (getFieldValue tx c.field) = true then Except.ok false
       else applyOperator (getFieldValue tx c.field) c.operator c.value) := rfl
  refine ⟨?_, ?_, ?_, ?_, ?_⟩
  · rw [hgoal]
    by_cases hf : (c.field = "" || c.operator = "") = true
    · rw [if_pos hf]
      exact Or.inr (Or.inl rfl)
    · rw [if_neg hf]
      by_cases hn : pyIsNone (getFieldValue tx c.field) = true
      · rw [if_pos hn]
        exact Or.inr (Or.inl rfl)
      · rw [if_neg hn]
        cases hr : applyOperator (getFieldValue tx c.field) c.operator c.value with
        | ok b =>
          cases b with
          | true => exact Or.inl rfl
          | false => exact Or.inr (Or.inl rfl)
        | error e =>
          rcases applyOperator_error_cases _ _ _ _ hr with ⟨hop, he⟩
          exact Or.inr (Or.inr ⟨hop, by rw [he]⟩)
  · intro hn
    rw [hgoal]
    by_cases hf : (c.field = "" || c.operator = "") = true
    · rw [if_pos hf]
    · rw [if_neg hf, if_pos hn]
  · intro hop
    rw [hgoal]
    by_cases hf : (c.field = "" || c.operator = "") = true
    · rw [if_pos hf]
    · rw [if_neg hf]
      by_cases hn : pyIsNone (getFieldValue tx c.field) = true
      · rw [if_pos hn]
      · rw [if_neg hn]
        unfold applyOperator
        rw [applyOperatorBody_unknown _ _ _ hop]
  · intro e hbody hcaught
    rw [hgoal]
    by_cases hf : (c.field = "" || c.operator = "") = true
    · rw [if_pos hf]
    · rw [if_neg hf]
      by_cases hn : pyIsNone (getFieldValue tx c.field) = true
      · rw [if_pos hn]
      · rw [if_neg hn]
        unfold applyOperator
        rw [hbody]
        show (if e = PyExc.valueError ∨ e = PyExc.typeError ∨ e = PyExc.attributeError
            then Except.ok false else (Except.error e : Except PyExc Bool)) = Except.ok false
        rw [if_pos hcaught]
  · intro pat hop hval hb
    rw [hgoal]
    by_cases hf : (c.field = "" || c.operator = "") = true
    · rw [if_pos hf]
      exact Or.inr rfl
    · rw [if_neg hf]
      by_cases hn : pyIsNone (getFieldValue tx c.field) = true
      · rw [if_pos hn]
        exact Or.inr rfl
      · rw [if_neg hn, hop, hval, applyOperator_regex_wellformed _ _ hb]
        cases strContains (pyStr (getFieldValue tx c.field)) pat with
        | true => exact Or.inl rfl
        | false => exact Or.inr rfl

/-- C2 witness: a condition with an unresolvable field path and a condition
with an unknown operator both evaluate to `false`. -/
theorem c2_condition_fail_closed_witness :
    evaluateCondition sCondMissingField sTx = Except.ok false
    ∧ evaluateCondition sCondUnknownOp sTx = Except.ok false :=
  ⟨(c2_condition_fail_closed sCondMissingField sTx).2.1 (by rfl),
   (c2_condition_fail_closed sCondUnknownOp sTx).2.2.1 (by decide)⟩

/-! Claim C7: the contains / not_contains operators. -/

/-- C7 counterexample: the code lower-cases only the field value, not the
expected value, so `contains` is case-sensitive in the expected operand:
with field value `cash deposit` and expected value `CASH` the operator
returns `false`, while the claimed both-sides-lower-cased test is
`true`. -/
theorem c7_contains_case_sensitive_expected :
    applyOperator (PyVal.str sFieldCash) opContains (PyVal.str sNeedleUpper) =
      Except.ok false ∧
    strContains (strToLower (pyStr (PyVal.str sFieldCash))) (strToLower sNeedleUpper) = true := by
  constructor
  · rfl
  · rfl

/-- C7 (amended): `contains` tests the expected value verbatim for
containment in the lower-cased string form of the field value — so the
test is insensitive to the case of the field value but sensitive to the
case of the expected value — and `not_contains` is its negation for
string expected values. -/
theorem c7_contains_amended (fv : PyVal) (e : String) (s t : String) :
    (applyOperator fv opContains (PyVal.str e) =
      Except.ok (strContains (strToLower (pyStr fv)) e))
    ∧ (applyOperator fv opNotContains (PyVal.str e) =
      Except.ok (!(strContains (strToLower (pyStr fv)) e)))
    ∧ (strToLower s = strToLower t →
        applyOperator (PyVal.str s) opContains (PyVal.str e) =
          applyOperator (PyVal.str t) opContains (PyVal.str e)) := by
  refine ⟨?_, ?_, ?_⟩
  · simp [applyOperator, applyOperatorBody, opContains, pyMem]
  · simp [applyOperator, applyOperatorBody, opNotContains, pyMem, except_bind_ok]
  · intro hst
    simp [applyOperator, applyOperatorBody, opContains, pyMem, pyStr, hst]

/-- C7 witness: two field values differing only in case give the same
`contains` outcome. -/
theorem c7_contains_amended_witness :
    strToLower sFieldCash = strToLower sFieldCashMixed ∧
    applyOperator (PyVal.str sFieldCash) opContains (PyVal.str sNeedleLower) =
      applyOperator (PyVal.str sFieldCashMixed) opContains (PyVal.str sNeedleLower) :=
  ⟨by rfl, (c7_contains_amended (PyVal.str sFieldCash) sNeedleLower sFieldCash sFieldCashMixed).2.2 (by rfl)⟩

/-! Claim C8: the near_threshold operator. -/

/-- C8. For numeric amount `a` and numeric threshold `t`, the
`near_threshold` operator returns true iff `0.85*t ≤ a < t`; in
particular it returns false at `a = t`, and false whenever
`a < 0.85*t`. -/
theorem c8_near_threshold_iff (a t : Rat) :
    (applyOperator (PyVal.float a) opNearThreshold (PyVal.float t) =
      Except.ok (decide ((85/100 : Rat) * t ≤ a ∧ a < t)))
    ∧ (applyOperator (PyVal.float t) opNearThreshold (PyVal.float t) = Except.ok false)
    ∧ (a < (85/100 : Rat) * t →
        applyOperator (PyVal.float a) opNearThreshold (PyVal.float t) = Except.ok false) := by
  refine ⟨?_, ?_, ?_⟩
  · simp [applyOperator, applyOperatorBody, opNearThreshold, pyFloat, except_bind_ok,
      decide_eq_decide]
    rw [mul_comm]
    norm_num
  · simp [applyOperator, applyOperatorBody, opNearThreshold, pyFloat, except_bind_ok]
  · intro hlt
    simp [applyOperator, applyOperatorBody, opNearThreshold, pyFloat, except_bind_ok]
    intro hle
    nlinarith

/-- C8 witness: a concrete amount strictly below 85 percent of the
threshold evaluates to false. -/
theorem c8_near_threshold_iff_witness :
    applyOperator (PyVal.float 8000) opNearThreshold (PyVal.float 10000) = Except.ok false :=
  (c8_near_threshold_iff 8000 10000).2.2 (by norm_num)

/-! Claim C1: the enabled flag is ignored by evaluate_transaction. -/

/-- C1 (code refutation): a rule loaded with `enabled: false` is still
evaluated by `evaluate_transaction` — it appears in `triggered_rules` and
in `rule_scores`, and its statistics counters are incremented — because
the loop over `self.rules.items()` never consults the `enabled` flag. -/
theorem c1_disabled_rule_still_evaluated :
    sDisabledRule.enabled = false
    ∧ (evaluateTransaction sDisabledState sTx 0).1.triggered_rules = [sDisabledName]
    ∧ (evaluateTransaction sDisabledState sTx 0).1.rule_scores.map Prod.fst = [sDisabledName]
    ∧ assocFind (evaluateTransaction sDisabledState sTx 0).2.rule_stats sDisabledName =
        some { triggers := 1, evaluations := 1, last_triggered := some 0 } :=
  ⟨rfl, rfl, rfl, rfl⟩

/-! Claim C3: the final risk score formula. -/

/-- C3. The final risk score is
`round2 (min 10 (0.6*mlScore + 0.4*maxRuleScore*10 + 1))` when some rule
triggered and `round2 (0.8*mlScore + 0.2*maxRuleScore*10)` otherwise,
where `mlScore` is the prediction's risk score (0 when absent) and
`maxRuleScore` the largest rule score (0 when there are none). -/
theorem c3_final_risk_score_formula (ml : Option MLPrediction) (rr : RuleEvalResult) :
    (rr.triggered_rules ≠ [] →
      calculateFinalRiskScore ml rr =
        pyRound2 (min 10 ((6/10 : Rat) * mlScoreOf ml +
          (4/10 : Rat) * listMaxD (rr.rule_scores.map Prod.snd) * 10 + 1)))
    ∧ (rr.triggered_rules = [] →
      calculateFinalRiskScore ml rr =
        pyRound2 ((8/10 : Rat) * mlScoreOf ml +
          (2/10 : Rat) * listMaxD (rr.rule_scores.map Prod.snd) * 10)) := by
  constructor
  · intro hne
    cases hrr : rr.triggered_rules with
    | nil => exact absurd hrr hne
    | cons a l => cases ml <;> simp [calculateFinalRiskScore, mlScoreOf, hrr]
  · intro he
    cases ml <;> simp [calculateFinalRiskScore, mlScoreOf, he]

/-- C3 witness: the boosted branch at a concrete prediction and one
triggered rule. -/
theorem c3_final_risk_score_formula_witness :
    sTrigResult.triggered_rules ≠ [] ∧
    calculateFinalRiskScore (some sPrediction) sTrigResult =
      pyRound2 (min 10 ((6/10 : Rat) * mlScoreOf (some sPrediction) +
        (4/10 : Rat) * listMaxD (sTrigResult.rule_scores.map Prod.snd) * 10 + 1)) :=
  ⟨by decide, (c3_final_risk_score_formula (some sPrediction) sTrigResult).1 (by decide)⟩

/-! Claim C4: disposition threshold, alert creation, severity. -/

/-- C4. The disposition is `flagged` iff the final score is at least 6.0
(else `clear`), an alert is synthesized iff the disposition is `flagged`,
and every synthesized alert's severity is `critical` at a score of at
least 8.0 and `high` otherwise — the `medium` branch of `_create_alert`
is unreachable from the pipeline. -/
theorem c4_disposition_alert_severity (tx : PyVal) (ml : Option MLPrediction)
    (rr : RuleEvalResult) :
    ((processSingleTransaction tx ml rr).2.1 = dispFlagged ↔
      (6 : Rat) ≤ (processSingleTransaction tx ml rr).1)
    ∧ ((processSingleTransaction tx ml rr).2.1 = dispClear ↔
      ¬ (6 : Rat) ≤ (processSingleTransaction tx ml rr).1)
    ∧ ((processSingleTransaction tx ml rr).2.2.isSome = true ↔
      (processSingleTransaction tx ml rr).2.1 = dispFlagged)
    ∧ (∀ al, (processSingleTransaction tx ml rr).2.2 = some al →
        al.severity =
          if (8 : Rat) ≤ (processSingleTransaction tx ml rr).1 then sevCritical
          else sevHigh) := by
  by_cases h6 : (6 : Rat) ≤ calculateFinalRiskScore ml rr
  · by_cases h8 : (8 : Rat) ≤ calculateFinalRiskScore ml rr
    · refine ⟨?_, ?_, ?_, ?_⟩ <;>
        simp [processSingleTransaction, transactionStatus, createAlert, h6, h8,
          dispFlagged, dispClear, sevCritical, sevHigh]
    · refine ⟨?_, ?_, ?_, ?_⟩ <;>
        simp [processSingleTransaction, transactionStatus, createAlert, h6, h8,
          dispFlagged, dispClear, sevCritical, sevHigh]
  · refine ⟨?_, ?_, ?_, ?_⟩ <;>
      simp [processSingleTransaction, transactionStatus, h6,
        dispFlagged, dispClear]

/-- The structural floor on `Rat` agrees with the floor of the ordered
field structure. -/
theorem ratFloor_eq_intFloor (q : Rat) : q.floor = ⌊q⌋ := rfl

/-- Round half to even fixes integers. -/
theorem roundHalfEven_intCast (n : Int) : roundHalfEven ((n : Int) : Rat) = n := by
  unfold roundHalfEven
  rw [ratFloor_eq_intFloor, Int.floor_intCast]
  norm_num

/-- C4 witness: at ML score 7.0 and maximum rule score 0.4 the final score
is 6.8, the transaction is flagged, and the alert severity is `high`. -/
theorem c4_disposition_alert_severity_witness :
    (processSingleTransaction sTx (some sPrediction) sTrigResult).2.1 = dispFlagged
    ∧ (createAlert sTx (some sPrediction) sTrigResult
        (calculateFinalRiskScore (some sPrediction) sTrigResult)).severity = sevHigh := by
  have hs : calculateFinalRiskScore (some sPrediction) sTrigResult = 34/5 := by
    have h0 : calculateFinalRiskScore (some sPrediction) sTrigResult =
        pyRound2 (min 10 ((6/10 : Rat) * sPrediction.risk_score +
          (4/10 : Rat) * listMaxD (sTrigResult.rule_scores.map Prod.snd) * 10 + 1)) := rfl
    have h1 : (min 10 ((6/10 : Rat) * sPrediction.risk_score +
        (4/10 : Rat) * listMaxD (sTrigResult.rule_scores.map Prod.snd) * 10 + 1)) =
        ((34 : Rat)/5) := by
      simp only [sTrigResult, sPrediction, List.map_cons, List.map_nil, listMaxD,
        List.foldl_nil]
      norm_num [min_def]
    rw [h0, h1]
    unfold pyRound2
    rw [show ((34 : Rat)/5 * 100) = (((680 : Int) : Int) : Rat) by norm_num]
    rw [roundHalfEven_intCast]
    norm_num
  have h6 : (6 : Rat) ≤ calculateFinalRiskScore (some sPrediction) sTrigResult := by
    rw [hs]; norm_num
  have h8 : ¬ (8 : Rat) ≤ calculateFinalRiskScore (some sPrediction) sTrigResult := by
    rw [hs]; norm_num
  have hc := c4_disposition_alert_severity sTx (some sPrediction) sTrigResult
  constructor
  · exact hc.1.mpr h6
  · have halert : (processSingleTransaction sTx (some sPrediction) sTrigResult).2.2 =
        some (createAlert sTx (some sPrediction) sTrigResult
          (calculateFinalRiskScore (some sPrediction) sTrigResult)) := by
      simp [processSingleTransaction, h6]
    have hsev := hc.2.2.2 _ halert
    have hp1 : (processSingleTransaction sTx (some sPrediction) sTrigResult).1 =
        calculateFinalRiskScore (some sPrediction) sTrigResult := rfl
    rw [hp1] at hsev
    rw [hsev, if_neg h8]

/-! Claim C5: single-rule evaluation. -/

/-- C5. A rule with no conditions evaluates to `(false, 0.0)`; otherwise,
when its conditions evaluate to the outcome list `rs`, the rule triggers
per its logic (`AND` = all true, `OR` = any true, unrecognized = `AND`)
and scores `base_score * (count_true / total_conditions)` when triggered,
else `0.0`. -/
theorem c5_evaluate_rule_logic_score (rule : Rule) (tx : PyVal) :
    (rule.conditions = [] → evaluateRule rule tx = Except.ok (false, 0))
    ∧ (∀ rs, rule.conditions ≠ [] →
        conditionResults rule.conditions tx = Except.ok rs →
        evaluateRule rule tx =
          Except.ok (specRuleTrig rule.logic rs, specRuleScore rule.score rule.logic rs)) := by
  constructor
  · intro hc
    simp [evaluateRule, hc]
  · intro rs hne hrs
    have hemp : rule.conditions.isEmpty = false := by
      cases hcl : rule.conditions with
      | nil => exact absurd hcl hne
      | cons a l => rfl
    simp [evaluateRule, hemp, hrs, except_bind_ok, specRuleTrig, specRuleScore]

/-- C5 witness: an `OR` rule with base score 0.8 and condition outcomes
`[true, false]` triggers with score `0.8 * (1/2)`. -/
theorem c5_evaluate_rule_logic_score_witness :
    conditionResults sOrRule.conditions sTx = Except.ok [true, false]
    ∧ evaluateRule sOrRule sTx =
        Except.ok (specRuleTrig sOrRule.logic [true, false],
          specRuleScore sOrRule.score sOrRule.logic [true, false]) :=
  ⟨rfl, (c5_evaluate_rule_logic_score sOrRule sTx).2 [true, false] (by simp [sOrRule]) rfl⟩

/-! Claim C6: alert-type priority order. -/

/-- The alert type of a created alert depends only on which of the three
named rule names are present in the triggered list. -/
theorem createAlert_type_eq (tx : PyVal) (ml : Option MLPrediction) (rr : RuleEvalResult)
    (s : Rat) :
    (createAlert tx ml rr s).alert_type =
      (if atStructuring ∈ rr.triggered_rules then atStructuring
       else if atVelocity ∈ rr.triggered_rules then atVelocity
       else if atGeographic ∈ rr.triggered_rules then atGeographic
       else atAnomaly) := by
  by_cases h1 : atStructuring ∈ rr.triggered_rules <;>
    by_cases h2 : atVelocity ∈ rr.triggered_rules <;>
      by_cases h3 : atGeographic ∈ rr.triggered_rules <;>
        simp [createAlert, h1, h2, h3]

/-- C6. The alert type follows the fixed priority order
structuring > velocity > geographic > anomaly over the set of triggered
rule names, independent of rule scores, of the rest of the inputs, and of
the order in which the names were accumulated. -/
theorem c6_alert_type_priority (tx tx2 : PyVal) (ml ml2 : Option MLPrediction)
    (rr rr2 : RuleEvalResult) (s s2 : Rat) :
    (rr.triggered_rules.Perm rr2.triggered_rules →
      (createAlert tx ml rr s).alert_type = (createAlert tx2 ml2 rr2 s2).alert_type)
    ∧ (atStructuring ∈ rr.triggered_rules →
      (createAlert tx ml rr s).alert_type = atStructuring)
    ∧ (atStructuring ∉ rr.triggered_rules → atVelocity ∈ rr.triggered_rules →
      (createAlert tx ml rr s).alert_type = atVelocity)
    ∧ (atStructuring ∉ rr.triggered_rules → atVelocity ∉ rr.triggered_rules →
      atGeographic ∈ rr.triggered_rules →
      (createAlert tx ml rr s).alert_type = atGeographic)
    ∧ (atStructuring ∉ rr.triggered_rules → atVelocity ∉ rr.triggered_rules →
      atGeographic ∉ rr.triggered_rules →
      (createAlert tx ml rr s).alert_type = atAnomaly) := by
  refine ⟨?_, ?_, ?_, ?_, ?_⟩
  · intro hperm
    rw [createAlert_type_eq, createAlert_type_eq]
    simp only [hperm.mem_iff]
  · intro h1
    rw [createAlert_type_eq, if_pos h1]
  · intro h1 h2
    rw [createAlert_type_eq, if_neg h1, if_pos h2]
  · intro h1 h2 h3
    rw [createAlert_type_eq, if_neg h1, if_neg h2, if_pos h3]
  · intro h1 h2 h3
    rw [createAlert_type_eq, if_neg h1, if_neg h2, if_neg h3]

/-- C6 witness: the triggered sets geographic-then-structuring and
structuring-then-geographic both resolve to alert type `structuring`. -/
theorem c6_alert_type_priority_witness :
    (createAlert sTx (some sPrediction) sGeoStructResult 7).alert_type = atStructuring
    ∧ (createAlert sTx (some sPrediction) sStructGeoResult 7).alert_type = atStructuring :=
  ⟨(c6_alert_type_priority sTx sTx (some sPrediction) (some sPrediction)
      sGeoStructResult sGeoStructResult 7 7).2.1 (by decide),
   (c6_alert_type_priority sTx sTx (some sPrediction) (some sPrediction)
      sStructGeoResult sStructGeoResult 7 7).2.1 (by decide)⟩

/-! Claim C9: statistics across a registry reload. -/

/-- C9 counterexample: after a reload whose new configuration set does not
contain `old_rule`, the stats store still holds the stale record of
`old_rule` — `reload_rules` clears `self.rules` but never clears
`self.rule_stats` — contradicting the claim that statistics of vanished
rule names are discarded. -/
theorem c9_stale_stats_retained :
    (reloadRules [(sNewName, sOrRule)] sPreReloadState).rules.map Prod.fst = [sNewName]
    ∧ assocFind (reloadRules [(sNewName, sOrRule)] sPreReloadState).rule_stats sOldName =
        some sOldStats :=
  ⟨rfl, rfl⟩

/-- Lookup after inserting the same key. -/
theorem assocFind_insert_self {α : Type} (l : List (String × α)) (k : String) (v : α) :
    assocFind (assocInsert l k v) k = some v := by
  induction l with
  | nil => simp [assocInsert, assocFind]
  | cons p rest ih =>
    by_cases hk : p.1 = k
    · simp [assocInsert, assocFind, hk]
    · simp [assocInsert, assocFind, hk, ih]

/-- Lookup after inserting a different key. -/
theorem assocFind_insert_ne {α : Type} (l : List (String × α)) (k k2 : String) (v : α)
    (h : k ≠ k2) : assocFind (assocInsert l k v) k2 = assocFind l k2 := by
  induction l with
  | nil => simp [assocInsert, assocFind, h]
  | cons p rest ih =>
    by_cases hk : p.1 = k
    · simp [assocInsert, assocFind, hk, h]
    · simp only [assocInsert, if_neg hk]
      by_cases hk2 : p.1 = k2
      · simp [assocFind, hk2]
      · simp [assocFind, hk2, ih]

/-- Statistics lookup after `load_rules`: every loaded name maps to a
fresh record, every other name keeps its previous record. -/
theorem loadRules_stats_find (files : List (String × Rule)) (st : EngineState) (name : String) :
    assocFind (loadRules files st).rule_stats name =
      (if name ∈ files.map Prod.fst then some freshStats
       else assocFind st.rule_stats name) := by
  induction files generalizing st with
  | nil => simp [loadRules]
  | cons f rest ih =>
    have hstep : loadRules (f :: rest) st =
        loadRules rest
          { rules := assocInsert st.rules f.1 f.2,
            rule_stats := assocInsert st.rule_stats f.1 freshStats } := rfl
    rw [hstep, ih]
    by_cases hmem : name ∈ rest.map Prod.fst
    · simp [hmem]
    · by_cases hn : name = f.1
      · simp [hmem, hn, assocFind_insert_self]
      · have hnotc : ¬ name ∈ (f :: rest).map Prod.fst := by
          intro hc
          rw [List.map_cons, List.mem_cons] at hc
          rcases hc with h | h
          · exact hn h
          · exact hmem h
        rw [if_neg hmem, if_neg hnotc]
        exact assocFind_insert_ne st.rule_stats f.1 name freshStats (fun h => hn h.symm)

/-- C9 (amended): after `reload_rules`, every rule name in the newly loaded
set has a fresh statistics record (evaluations 0, triggers 0, no
last-triggered timestamp), and the statistics record of every rule name
absent from the new set is retained unchanged in the stats store rather
than discarded. -/
theorem c9_reload_stats_amended (files : List (String × Rule)) (st : EngineState)
    (name : String) :
    (name ∈ files.map Prod.fst →
      assocFind (reloadRules files st).rule_stats name = some freshStats)
    ∧ (name ∉ files.map Prod.fst →
      assocFind (reloadRules files st).rule_stats name = assocFind st.rule_stats name) := by
  constructor
  · intro hmem
    rw [reloadRules, loadRules_stats_find, if_pos hmem]
  · intro hmem
    rw [reloadRules, loadRules_stats_find, if_neg hmem]

/-- C9 witness: the new rule gets a fresh record while the vanished rule's
record survives the reload. -/
theorem c9_reload_stats_amended_witness :
    assocFind (reloadRules [(sNewName, sOrRule)] sPreReloadState).rule_stats sNewName =
      some freshStats
    ∧ assocFind (reloadRules [(sNewName, sOrRule)] sPreReloadState).rule_stats sOldName =
      assocFind sPreReloadState.rule_stats sOldName :=
  ⟨(c9_reload_stats_amended [(sNewName, sOrRule)] sPreReloadState sNewName).1 (by decide),
   (c9_reload_stats_amended [(sNewName, sOrRule)] sPreReloadState sOldName).2 (by decide)⟩

/-! Claim C10: coherence of the evaluation result. -/

/-- Inserting an absent key appends it. -/
theorem assocInsert_not_mem {α : Type} (l : List (String × α)) (k : String) (v : α)
    (h : k ∉ l.map Prod.fst) : assocInsert l k v = l ++ [(k, v)] := by
  induction l with
  | nil => rfl
  | cons p rest ih =>
    have hk : ¬ p.1 = k := by
      intro he
      apply h
      rw [List.map_cons, he]
      exact List.mem_cons_self k (rest.map Prod.fst)
    have ht : k ∉ rest.map Prod.fst := by
      intro hm
      exact h (by rw [List.map_cons]; exact List.mem_cons_of_mem p.1 hm)
    simp [assocInsert, hk, ih ht]

/-- Under unique keys, membership determines the lookup. -/
theorem assocFind_of_mem_nodup {α : Type} (l : List (String × α)) (k : String) (v : α)
    (hnd : (l.map Prod.fst).Nodup) (hm : (k, v) ∈ l) : assocFind l k = some v := by
  induction l with
  | nil => cases hm
  | cons p rest ih =>
    rw [List.map_cons, List.nodup_cons] at hnd
    rcases List.mem_cons.mp hm with he | ht
    · rw [← he]
      simp [assocFind]
    · have hk : ¬ p.1 = k := by
        intro hpk
        apply hnd.1
        rw [hpk]
        exact List.mem_map.mpr ⟨(k, v), ht, rfl⟩
      simp only [assocFind, if_neg hk]
      exact ih hnd.2 ht

/-- Invariant of the rule loop of `evaluate_transaction`: starting from an
accumulator whose score keys spell out its triggered list, the final score
keys spell out the final triggered list, the triggered list stays
duplicate-free, and every accumulated score entry comes from a rule of the
list that evaluated to triggered with that score. -/
theorem evalFold_coherent (tx : PyVal) (now : Nat) (rules : List (String × Rule))
    (trig : List String) (scores : List (String × Rat)) (stats : List (String × RuleStats))
    (hkeys : scores.map Prod.fst = trig)
    (htnd : trig.Nodup)
    (hdisj : ∀ n, n ∈ rules.map Prod.fst → n ∉ trig)
    (hnd : (rules.map Prod.fst).Nodup) :
    (rules.foldl (evalRuleStep tx now) (trig, scores, stats)).2.1.map Prod.fst =
      (rules.foldl (evalRuleStep tx now) (trig, scores, stats)).1
    ∧ (rules.foldl (evalRuleStep tx now) (trig, scores, stats)).1.Nodup
    ∧ (∀ n sc, (n, sc) ∈ (rules.foldl (evalRuleStep tx now) (trig, scores, stats)).2.1 →
        (n, sc) ∈ scores ∨
          ∃ cfg, (n, cfg) ∈ rules ∧ evaluateRule cfg tx = Except.ok (true, sc)) := by
  induction rules generalizing trig scores stats with
  | nil =>
    refine ⟨hkeys, htnd, ?_⟩
    intro n sc hm
    exact Or.inl hm
  | cons entry rest ih =>
    obtain ⟨k, cfg⟩ := entry
    rw [List.map_cons, List.nodup_cons] at hnd
    have hdisj_rest : ∀ n, n ∈ rest.map Prod.fst → n ∉ trig := by
      intro n hn
      exact hdisj n (by rw [List.map_cons]; exact List.mem_cons_of_mem k hn)
    rw [List.foldl_cons]
    cases hs : assocFind stats k with
    | none =>
      have hstep : evalRuleStep tx now (trig, scores, stats) (k, cfg) =
          (trig, scores, stats) := by
        simp [evalRuleStep, hs]
      rw [hstep]
      rcases ih trig scores stats hkeys htnd hdisj_rest hnd.2 with ⟨ha, hb, hc⟩
      refine ⟨ha, hb, ?_⟩
      intro n sc hm
      rcases hc n sc hm with hin | ⟨c2, hc2, he2⟩
      · exact Or.inl hin
      · exact Or.inr ⟨c2, List.mem_cons_of_mem _ hc2, he2⟩
    | some st0 =>
      cases he : evaluateRule cfg tx with
      | error e =>
        have hstep : evalRuleStep tx now (trig, scores, stats) (k, cfg) =
            (trig, scores,
              assocUpdate stats k (fun s => { s with evaluations := s.evaluations + 1 })) := by
          simp [evalRuleStep, hs, he]
        rw [hstep]
        rcases ih trig scores _ hkeys htnd hdisj_rest hnd.2 with ⟨ha, hb, hc⟩
        refine ⟨ha, hb, ?_⟩
        intro n sc hm
        rcases hc n sc hm with hin | ⟨c2, hc2, he2⟩
        · exact Or.inl hin
        · exact Or.inr ⟨c2, List.mem_cons_of_mem _ hc2, he2⟩
      | ok pair =>
        obtain ⟨trg, sc0⟩ := pair
        cases trg with
        | false =>
          have hstep : evalRuleStep tx now (trig, scores, stats) (k, cfg) =
              (trig, scores,
                assocUpdate stats k (fun s => { s with evaluations := s.evaluations + 1 })) := by
            simp [evalRuleStep, hs, he]
          rw [hstep]
          rcases ih trig scores _ hkeys htnd hdisj_rest hnd.2 with ⟨ha, hb, hc⟩
          refine ⟨ha, hb, ?_⟩
          intro n sc hm
          rcases hc n sc hm with hin | ⟨c2, hc2, he2⟩
          · exact Or.inl hin
          · exact Or.inr ⟨c2, List.mem_cons_of_mem _ hc2, he2⟩
        | true =>
          have hktrig : k ∉ trig :=
            hdisj k (by rw [List.map_cons]; exact List.mem_cons_self k (rest.map Prod.fst))
          have hkscores : k ∉ scores.map Prod.fst := by
            rw [hkeys]
            exact hktrig
          have hins : assocInsert scores k sc0 = scores ++ [(k, sc0)] :=
            assocInsert_not_mem scores k sc0 hkscores
          have hstep : evalRuleStep tx now (trig, scores, stats) (k, cfg) =
              (trig ++ [k], assocInsert scores k sc0,
                assocUpdate
                  (assocUpdate stats k (fun s => { s with evaluations := s.evaluations + 1 }))
                  k (fun s => { s with triggers := s.triggers + 1, last_triggered := some now })) := by
            simp [evalRuleStep, hs, he]
          rw [hstep]
          have hkeys2 : (assocInsert scores k sc0).map Prod.fst = trig ++ [k] := by
            rw [hins, List.map_append, hkeys]
            rfl
          have htnd2 : (trig ++ [k]).Nodup := by
            rw [List.nodup_append]
            exact ⟨htnd, List.nodup_singleton k,
              fun a ha hb => by
                rw [List.mem_singleton] at hb
                rw [hb] at ha
                exact hktrig ha⟩
          have hdisj2 : ∀ n, n ∈ rest.map Prod.fst → n ∉ trig ++ [k] := by
            intro n hn hmem
            rcases List.mem_append.mp hmem with hin | hin
            · exact hdisj_rest n hn hin
            · rw [List.mem_singleton] at hin
              rw [hin] at hn
              exact hnd.1 hn
          rcases ih (trig ++ [k]) (assocInsert scores k sc0) _ hkeys2 htnd2 hdisj2 hnd.2
            with ⟨ha, hb, hc⟩
          refine ⟨ha, hb, ?_⟩
          intro n sc hm
          rcases hc n sc hm with hin | ⟨c2, hc2, he2⟩
          · rw [hins] at hin
            rcases List.mem_append.mp hin with hsc | hsc
            · exact Or.inl hsc
            · rw [List.mem_singleton] at hsc
              injection hsc with hsc1 hsc2
              refine Or.inr ⟨cfg, ?_, ?_⟩
              · rw [hsc1]
                exact List.mem_cons_self (k, cfg) rest
              · rw [hsc2]
                exact he
          · exact Or.inr ⟨c2, List.mem_cons_of_mem _ hc2, he2⟩

/-- C10. The result of `evaluate_transaction` is internally coherent: the
keys of `rule_scores` are exactly the names in `triggered_rules` (in
order), `triggered_rules` holds no duplicate names, and every recorded
score is the score `_evaluate_rule` returns for that rule on that
transaction. -/
theorem c10_result_coherence (st : EngineState) (tx : PyVal) (now : Nat)
    (hnd : (st.rules.map Prod.fst).Nodup) :
    (evaluateTransaction st tx now).1.rule_scores.map Prod.fst =
      (evaluateTransaction st tx now).1.triggered_rules
    ∧ (evaluateTransaction st tx now).1.triggered_rules.Nodup
    ∧ (∀ n sc, (n, sc) ∈ (evaluateTransaction st tx now).1.rule_scores →
        ∃ cfg, assocFind st.rules n = some cfg ∧
          evaluateRule cfg tx = Except.ok (true, sc)) := by
  have h := evalFold_coherent tx now st.rules [] [] st.rule_stats rfl List.nodup_nil
    (fun n _ hin => (List.not_mem_nil n) hin) hnd
  have hp1 : (evaluateTransaction st tx now).1.rule_scores =
      (st.rules.foldl (evalRuleStep tx now) ([], [], st.rule_stats)).2.1 := rfl
  have hp2 : (evaluateTransaction st tx now).1.triggered_rules =
      (st.rules.foldl (evalRuleStep tx now) ([], [], st.rule_stats)).1 := rfl
  rw [hp1, hp2]
  refine ⟨h.1, h.2.1, ?_⟩
  intro n sc hm
  rcases h.2.2 n sc hm with hin | ⟨cfg, hcfg, he⟩
  · exact absurd hin (List.not_mem_nil (n, sc))
  · exact ⟨cfg, assocFind_of_mem_nodup st.rules n cfg hnd hcfg, he⟩

/-- C10 witness: the two-rule sample state yields a coherent result. -/
theorem c10_result_coherence_witness :
    (evaluateTransaction sTwoRuleState sTx 0).1.rule_scores.map Prod.fst =
      (evaluateTransaction sTwoRuleState sTx 0).1.triggered_rules
    ∧ (evaluateTransaction sTwoRuleState sTx 0).1.triggered_rules.Nodup :=
  ⟨(c10_result_coherence sTwoRuleState sTx 0 (by decide)).1,
   (c10_result_coherence sTwoRuleState sTx 0 (by decide)).2.1⟩

end AMLGuard
